import Mathlib

/-!
# Batch driver of the YOLOv7 RK3588 demo (`src/main.cc`)

A shallow embedding of the four functions of `src/main.cc`
(`read_image_opencv`, `write_image_opencv`, `extractFileNameWithoutExtension`,
`processImagesInFolder`) and of `main`.

* A `std::string` / C string is a `List Char`.
* A C `int` is an `Int`; a pointer is an `Option Nat` (`none` is `NULL`).  The only
  arithmetic on `int` values is `x2 - x1`, `y2 - y1` and `y1 - 20` on the coordinates of a
  box and the counter of the drawing loop; signed overflow is undefined behaviour in C++
  and lies outside the model.
* The external collaborators (OpenCV, the detector, the drawing primitives, the
  directory stream, the allocator) are not part of the file.  What they return
  is an input of the model, and every call to one of them is recorded as an
  `Event`; a run of the program is the list of events it issues.
* Diagnostic output (`printf`, `std::cout`, `perror`) and the clock are left out
  of the trace, and pixel contents are not modelled.
-/

namespace Yolov7Driver

/-! ## Strings -/

/-- The comparison `strcmp` of `<cstring>` on two NUL-terminated strings, each given by the
characters stored from its start (the terminator is implicit at the end of the list, and a
NUL character inside the list terminates the string there as well). -/
def strcmp : List Char → List Char → Int
  | [], [] => 0
  | [], b :: _ => 0 - (b.toNat : Int)
  | a :: _, [] => (a.toNat : Int)
  | a :: as, b :: bs =>
    if a = b then (if a.toNat = 0 then 0 else strcmp as bs)
    else (a.toNat : Int) - (b.toNat : Int)

/-- The literal `".jpg"`. -/
def dot_jpg : List Char := ['.', 'j', 'p', 'g']

/-- The literal `".jpeg"`. -/
def dot_jpeg : List Char := ['.', 'j', 'p', 'e', 'g']

/-- The literal `".png"`. -/
def dot_png : List Char := ['.', 'p', 'n', 'g']

/-- The literal `"_out.png"`. -/
def out_png : List Char := ['_', 'o', 'u', 't', '.', 'p', 'n', 'g']

/-- The backslash character. -/
def backslash : Char := Char.ofNat 92

/-- The literal `"/\\"` of `extractFileNameWithoutExtension`: a slash and a backslash. -/
def separators : List Char := ['/', backslash]

/-- The test of lines 107-109 of `processImagesInFolder`:
`fileName.c_str() + fileName.size() - k` is the string starting `k` characters before the
end of `fileName`. -/
def hasImageExtension (fileName : List Char) : Bool :=
  (decide (fileName.length ≥ 4) &&
      decide (strcmp (fileName.drop (fileName.length - 4)) dot_jpg = 0)) ||
  (decide (fileName.length ≥ 5) &&
      decide (strcmp (fileName.drop (fileName.length - 5)) dot_jpeg = 0)) ||
  (decide (fileName.length ≥ 4) &&
      decide (strcmp (fileName.drop (fileName.length - 4)) dot_png = 0))

/-- Scan of `std::string::find_last_of`: `i` is the index of the head of the remaining
characters, `found` the last index seen so far whose character is one of `chars`. -/
def find_last_of_from (chars : List Char) : List Char → Nat → Option Nat → Option Nat
  | [], _, found => found
  | c :: rest, i, found =>
    find_last_of_from chars rest (i + 1) (if c ∈ chars then some i else found)

/-- The method `std::string::find_last_of`: the index of the last character of `s` that is
one of `chars`; `none` is `std::string::npos`. -/
def find_last_of (s chars : List Char) : Option Nat :=
  find_last_of_from chars s 0 none

/-- The function `extractFileNameWithoutExtension` (lines 77-89). -/
def extractFileNameWithoutExtension (path : List Char) : List Char :=
  let filename :=
    match find_last_of path separators with
    | none => path
    | some pos => path.drop (pos + 1)
  match find_last_of filename ['.'] with
  | some pos => filename.take pos
  | none => filename

/-- The variable `fullPath` of line 104. -/
def fullPath (folderPath fileName : List Char) : List Char :=
  folderPath ++ ['/'] ++ fileName

/-- The variable `outputFileName` of line 111. -/
def outputFileName (folderPath outputFolderPath fileName : List Char) : List Char :=
  outputFolderPath ++ ['/'] ++
    extractFileNameWithoutExtension (fullPath folderPath fileName) ++ out_png

/-! ## Declarations of the headers -/

/-- Modelled from the spec: the constants of `image_utils.h` and `image_drawing.h` that
`main.cc` names, and the formatting of a label; the headers are not among the sources, so
their values are parameters.  `IMAGE_FORMAT_RGB888` and `IMAGE_FORMAT_GRAY8` are two
enumerators of the pixel format enumeration (3-channel interleaved colour and 1-channel
grayscale), `COLOR_BLUE` and `COLOR_RED` the colours of the box and of the label, and
`label_text cls_id prop` is the text that
`sprintf(text, "%s %.1f%%", coco_cls_to_name(cls_id), prop * 100)` produces, `prop` being
the bit pattern of the `float` score, which the model never interprets. -/
structure Header where
  IMAGE_FORMAT_RGB888 : Nat
  IMAGE_FORMAT_GRAY8 : Nat
  enumerators_distinct : IMAGE_FORMAT_RGB888 ≠ IMAGE_FORMAT_GRAY8
  COLOR_BLUE : Nat
  COLOR_RED : Nat
  label_text : Int → Nat → List Char

/-- Modelled from the spec: the fields of `image_buffer_t` that `main.cc` touches (the
declaration lives in a header that is not among the sources).  `format` is the value of
the enumeration, `virt_addr` the pointer to the pixels. -/
structure image_buffer_t where
  width : Int
  height : Int
  format : Nat
  virt_addr : Option Nat
deriving DecidableEq, Repr

/-- The result of `memset(&src_image, 0, sizeof(image_buffer_t))`. -/
def image_buffer_t.zero : image_buffer_t :=
  { width := 0, height := 0, format := 0, virt_addr := none }

/-- Modelled from the spec: the bounding box of a detection (left, top, right, bottom). -/
structure image_rect_t where
  left : Int
  top : Int
  right : Int
  bottom : Int
deriving DecidableEq, Repr

/-- Modelled from the spec: one detection (`object_detect_result`); `prop` is the bit
pattern of the `float` score. -/
structure object_detect_result where
  box : image_rect_t
  prop : Nat
  cls_id : Int
deriving DecidableEq, Repr

/-- Modelled from the spec: the result list of one image (`object_detect_result_list`):
the `int` field `count` and the array `results`, read at index `i` as `results i` (the
capacity of the array is declared in a header that is not among the sources). -/
structure object_detect_result_list where
  count : Int
  results : Nat → object_detect_result

/-- What `cv::imread` returns: a matrix with its dimensions and channel count. -/
structure Mat where
  rows : Nat
  cols : Nat
  channels : Nat
deriving DecidableEq, Repr

/-- The method `cv::Mat::total`. -/
def Mat.total (m : Mat) : Nat := m.rows * m.cols

/-- The method `cv::Mat::empty`: the matrix has no element. -/
def Mat.empty (m : Mat) : Bool := m.total == 0

/-! ## Calls to the external collaborators -/

/-- The colour conversions requested from `cv::cvtColor`. -/
inductive ColorConversion where
  | COLOR_BGRA2RGB
  | COLOR_BGR2RGB
  | COLOR_RGB2BGR
deriving DecidableEq, Repr

/-- One call to an external collaborator, with the arguments that `main.cc` passes. -/
inductive Event where
  | init_post_process
  | init_yolov7_model (model_path : List Char)
  | opendir (path : List Char)
  | imread (path : List Char)
  | cvtColor (code : ColorConversion)
  | malloc (addr : Nat)
  | free (addr : Nat)
  | inference_yolov7_model (img : image_buffer_t)
  | draw_rectangle (x y width height : Int) (color : Nat) (thickness : Int)
  | draw_text (text : List Char) (x y : Int) (color : Nat) (fontsize : Int)
  | imwrite (path : List Char) (channels : Nat)
  | closedir
  | release_yolov7_model
  | deinit_post_process
deriving DecidableEq, Repr

/-- One entry returned by `readdir`, together with what the external calls made while the
entry is processed return: the matrix read by `cv::imread` from the entry (empty when the
file cannot be decoded), the non-null address returned by `malloc`, the status and the
result list of `inference_yolov7_model`, and the outcome of `cv::imwrite`. -/
structure Entry where
  d_name : List Char
  imread : Mat
  malloc : Nat
  inference_ret : Int
  od_results : object_detect_result_list
  imwrite : Bool

/-- What the external calls of `main` return: the status of `init_post_process` (which
`main` discards), of `init_yolov7_model` and of `release_yolov7_model`, and the entries of
the input directory in the order of `readdir` (`none` when `opendir` returns a null
pointer). -/
structure World where
  init_post_process : Int
  init_yolov7_model : Int
  opendir : Option (List Entry)
  release_yolov7_model : Int

/-! ## The functions of `main.cc` -/

/-- The function `read_image_opencv` (lines 21-48): `cv_img` is what `cv::imread` returned
for `path`, `addr` what `malloc` returns (the size requested and the bytes copied are not
recorded); the result is the status, the buffer `image` after the call and the calls
issued. -/
def read_image_opencv (hdr : Header) (cv_img : Mat) (addr : Nat) (path : List Char)
    (image : image_buffer_t) : Int × image_buffer_t × List Event :=
  if cv_img.empty then (-1, image, [Event.imread path])
  else
    let code :=
      if cv_img.channels = 4 then ColorConversion.COLOR_BGRA2RGB
      else ColorConversion.COLOR_BGR2RGB
    let rgb_img : Mat := { rows := cv_img.rows, cols := cv_img.cols, channels := 3 }
    (0,
     { image with
        format := hdr.IMAGE_FORMAT_RGB888, width := rgb_img.cols, height := rgb_img.rows,
        virt_addr := some addr },
     [Event.imread path, Event.cvtColor code, Event.malloc addr])

/-- The local `channels` of `write_image_opencv` (lines 55-56). -/
def write_channels (hdr : Header) (img : image_buffer_t) : Nat :=
  if img.format = hdr.IMAGE_FORMAT_RGB888 then 3
  else if img.format = hdr.IMAGE_FORMAT_GRAY8 then 1 else 4

/-- The function `write_image_opencv` (lines 51-74): `success` is what `cv::imwrite`
returns; the result is the status and the calls issued. -/
def write_image_opencv (hdr : Header) (success : Bool) (path : List Char)
    (img : image_buffer_t) : Int × List Event :=
  let channels := write_channels hdr img
  let convert :=
    if channels = 3 ∧ img.format = hdr.IMAGE_FORMAT_RGB888 then
      [Event.cvtColor ColorConversion.COLOR_RGB2BGR]
    else []
  (if success then 0 else -1, convert ++ [Event.imwrite path channels])

/-- The statement `if (src_image.virt_addr != NULL) free(src_image.virt_addr);`
(lines 130-132 and 160-163). -/
def free_if_not_null (img : image_buffer_t) : List Event :=
  match img.virt_addr with
  | some addr => [Event.free addr]
  | none => []

/-- The body of the drawing loop (lines 143-155) for the detection `det_result`. -/
def drawBody (hdr : Header) (det_result : object_detect_result) : List Event :=
  let x1 := det_result.box.left
  let y1 := det_result.box.top
  let x2 := det_result.box.right
  let y2 := det_result.box.bottom
  [Event.draw_rectangle x1 y1 (x2 - x1) (y2 - y1) hdr.COLOR_BLUE 3,
   Event.draw_text (hdr.label_text det_result.cls_id det_result.prop) x1 (y1 - 20)
     hdr.COLOR_RED 10]

/-- The loop `for (int i = 0; i < od_results.count; i++)` of line 141, entered at index
`i` with `remaining` iterations left (`remaining` is `count - i` when that is positive and
`0` otherwise). -/
def drawLoop (hdr : Header) (results : Nat → object_detect_result) :
    Nat → Nat → List Event
  | _, 0 => []
  | i, remaining + 1 => drawBody hdr (results i) ++ drawLoop hdr results (i + 1) remaining

/-- One iteration of the `while` loop of `processImagesInFolder` (lines 103-164), for the
entry `entry` returned by `readdir`; `continue` ends the iteration.  The detector and the
drawing primitives receive `&src_image` and may change its pixels; they leave its fields,
`virt_addr` among them, as they are. -/
def loopBody (hdr : Header) (folderPath outputFolderPath : List Char) (entry : Entry) :
    List Event :=
  let fileName := entry.d_name
  if hasImageExtension fileName then
    let src_image := image_buffer_t.zero
    let r := read_image_opencv hdr entry.imread entry.malloc (fullPath folderPath fileName)
      src_image
    let src_image := r.2.1
    if r.1 ≠ 0 then r.2.2
    else
      let called := r.2.2 ++ [Event.inference_yolov7_model src_image]
      if entry.inference_ret ≠ 0 then called ++ free_if_not_null src_image
      else
        called ++ drawLoop hdr entry.od_results.results 0 entry.od_results.count.toNat ++
          (write_image_opencv hdr entry.imwrite
            (outputFileName folderPath outputFolderPath fileName) src_image).2 ++
          free_if_not_null src_image
  else []

/-- The `while ((entry = readdir(dir)) != nullptr)` loop (line 101) over the entries that
`readdir` still has to return. -/
def readdirLoop (hdr : Header) (folderPath outputFolderPath : List Char) :
    List Entry → List Event
  | [] => []
  | entry :: rest =>
    loopBody hdr folderPath outputFolderPath entry ++
      readdirLoop hdr folderPath outputFolderPath rest

/-- The function `processImagesInFolder` (lines 92-168): `dir` is what `opendir` gives. -/
def processImagesInFolder (hdr : Header) (folderPath : List Char) (dir : Option (List Entry))
    (outputFolderPath : List Char) : List Event :=
  match dir with
  | none => [Event.opendir folderPath]
  | some entries =>
    [Event.opendir folderPath] ++ readdirLoop hdr folderPath outputFolderPath entries ++
      [Event.closedir]

/-- The constant `modelPath` of `main`. -/
def modelPath : List Char :=
  "/home/firefly/GitHUb测试/YOLOv7_RK3588_object_detect/model/yolov7_best.rknn".toList

/-- The constant `imageFolder` of `main`. -/
def imageFolder : List Char :=
  "/home/firefly/GitHUb测试/YOLOv7_RK3588_object_detect/inputimage".toList

/-- The constant `outputFolder` of `main`. -/
def outputFolder : List Char :=
  "/home/firefly/GitHUb测试/YOLOv7_RK3588_object_detect/outputimage".toList

/-- The function `main` (lines 170-217): the value returned and the calls issued.  The
call `init_post_process();` is a statement whose value is not used, and the status of
`release_yolov7_model` only selects a diagnostic line. -/
def main (hdr : Header) (w : World) : Int × List Event :=
  let started := [Event.init_post_process, Event.init_yolov7_model modelPath]
  let ret := w.init_yolov7_model
  if ret ≠ 0 then (-1, started)
  else
    (0, started ++ processImagesInFolder hdr imageFolder w.opendir outputFolder ++
          [Event.release_yolov7_model, Event.deinit_post_process])

/-! ## Auxiliary definitions for the statements -/

/-- The buffer `src_image` after a successful `read_image_opencv` for `entry`. -/
def decodedImage (hdr : Header) (entry : Entry) : image_buffer_t :=
  { width := entry.imread.cols, height := entry.imread.rows,
    format := hdr.IMAGE_FORMAT_RGB888, virt_addr := some entry.malloc }

/-- The calls of a successful `read_image_opencv` followed by the call of the detector. -/
def decodeAndDetect (hdr : Header) (folderPath : List Char) (entry : Entry) : List Event :=
  [Event.imread (fullPath folderPath entry.d_name),
   Event.cvtColor (if entry.imread.channels = 4 then ColorConversion.COLOR_BGRA2RGB
     else ColorConversion.COLOR_BGR2RGB),
   Event.malloc entry.malloc,
   Event.inference_yolov7_model (decodedImage hdr entry)]

/-- The paths handed to `cv::imread` in a run, in the order of the calls. -/
def readPaths (trace : List Event) : List (List Char) :=
  trace.filterMap fun e =>
    match e with
    | Event.imread path => some path
    | _ => none

/-- The paths handed to `cv::imwrite` in a run, in the order of the calls. -/
def writePaths (trace : List Event) : List (List Char) :=
  trace.filterMap fun e =>
    match e with
    | Event.imwrite path _ => some path
    | _ => none

/-- The entries that run to the write: the name has an image extension, `cv::imread`
gave a non-empty matrix and the detector returned 0. -/
def completes (entry : Entry) : Bool :=
  hasImageExtension entry.d_name && !entry.imread.empty && decide (entry.inference_ret = 0)

/-- The entries for which `read_image_opencv` returns 0: the name has an image extension
and `cv::imread` gave a non-empty matrix. -/
def decodes (entry : Entry) : Bool :=
  hasImageExtension entry.d_name && !entry.imread.empty

/-- Whether a call is `cv::imread`, `malloc` or `free`. -/
def isMemoryEvent : Event → Bool
  | Event.imread _ => true
  | Event.malloc _ => true
  | Event.free _ => true
  | _ => false

/-- Whether a call is `malloc`. -/
def isMalloc : Event → Bool
  | Event.malloc _ => true
  | _ => false

/-- Whether a call is `free`. -/
def isFree : Event → Bool
  | Event.free _ => true
  | _ => false

/-- Whether a call is `init_yolov7_model`. -/
def isInitModel : Event → Bool
  | Event.init_yolov7_model _ => true
  | _ => false

/-- Whether a call is `release_yolov7_model`. -/
def isRelease : Event → Bool
  | Event.release_yolov7_model => true
  | _ => false

/-- Whether a call is `inference_yolov7_model`. -/
def isInference : Event → Bool
  | Event.inference_yolov7_model _ => true
  | _ => false

/-- Whether a call is `draw_rectangle`. -/
def isDrawRectangle : Event → Bool
  | Event.draw_rectangle _ _ _ _ _ _ => true
  | _ => false

/-- Whether a call works on one file of the directory: decode, colour conversion,
allocation, release, detection, drawing or write. -/
def isFileWork : Event → Bool
  | Event.imread _ => true
  | Event.cvtColor _ => true
  | Event.malloc _ => true
  | Event.free _ => true
  | Event.inference_yolov7_model _ => true
  | Event.draw_rectangle _ _ _ _ _ _ => true
  | Event.draw_text _ _ _ _ _ => true
  | Event.imwrite _ _ => true
  | _ => false

/-! ## Concrete inputs -/

/-- A header for the concrete inputs: grayscale is enumerator 0, colour enumerator 1, blue
is `0x0000FF`, red is `0xFF0000`, and every label reads `cat`. -/
def sampleHeader : Header :=
  { IMAGE_FORMAT_RGB888 := 1, IMAGE_FORMAT_GRAY8 := 0, enumerators_distinct := by decide,
    COLOR_BLUE := 255, COLOR_RED := 16711680, label_text := fun _ _ => ['c', 'a', 't'] }

/-- A detection of class 15 with the box (10, 10, 50, 50). -/
def sampleDetection : object_detect_result :=
  { box := { left := 10, top := 10, right := 50, bottom := 50 }, prop := 1063172178,
    cls_id := 15 }

/-- A result list holding `sampleDetection` once. -/
def sampleResults : object_detect_result_list :=
  { count := 1, results := fun _ => sampleDetection }

/-- An entry named `name` whose file decodes to a 2x2 colour image, is detected with
`sampleResults` and is written. -/
def sampleEntry (name : List Char) : Entry :=
  { d_name := name, imread := { rows := 2, cols := 2, channels := 3 }, malloc := 4096,
    inference_ret := 0, od_results := sampleResults, imwrite := true }

/-- The folder name `in`. -/
def sampleIn : List Char := ['i', 'n']

/-- The folder name `out`. -/
def sampleOut : List Char := ['o', 'u', 't']

/-- The entry name `a\b.jpg`: one POSIX file name, holding a backslash. -/
def backslashName : List Char := ['a', backslash, 'b', '.', 'j', 'p', 'g']

/-- The entry name `a.jpg`. -/
def name_a_jpg : List Char := ['a', '.', 'j', 'p', 'g']

/-- The entry name `a.png`. -/
def name_a_png : List Char := ['a', '.', 'p', 'n', 'g']

/-- The path `out/a_out.png`. -/
def out_a_out_png : List Char :=
  ['o', 'u', 't', '/', 'a', '_', 'o', 'u', 't', '.', 'p', 'n', 'g']

/-- The entry name `bad.png`. -/
def name_bad_png : List Char := ['b', 'a', 'd', '.', 'p', 'n', 'g']

/-- An entry named `name` whose file cannot be decoded: `cv::imread` gives an empty
matrix. -/
def corruptEntry (name : List Char) : Entry :=
  { sampleEntry name with imread := { rows := 0, cols := 0, channels := 0 } }

/-- An entry named `name` whose file decodes and on which the detector returns -1. -/
def undetectedEntry (name : List Char) : Entry :=
  { sampleEntry name with inference_ret := -1 }

/-- An entry named `name` whose file decodes and is detected, and for which `cv::imwrite`
reports failure. -/
def unwrittenEntry (name : List Char) : Entry :=
  { sampleEntry name with imwrite := false }

/-- A run in which `init_post_process` reports -1, the detector initialises, and the
directory holds `a.jpg`. -/
def postProcessFailsWorld : World :=
  { init_post_process := -1, init_yolov7_model := 0,
    opendir := some [sampleEntry name_a_jpg], release_yolov7_model := 0 }

/-- A run in which the detector initialises, the directory holds a file that fails to
decode, one on which detection fails and one that cannot be written, and the release of
the detector reports -1. -/
def everythingFailsWorld : World :=
  { init_post_process := 0, init_yolov7_model := 0,
    opendir := some [corruptEntry name_bad_png, undetectedEntry name_a_jpg,
      unwrittenEntry name_a_png],
    release_yolov7_model := -1 }

/-- A colour buffer of 2x2 pixels at address 4096, as `sampleHeader` numbers the formats. -/
def sampleImage : image_buffer_t :=
  { width := 2, height := 2, format := 1, virt_addr := some 4096 }

/-! ## Lemmas on strings -/

theorem char_toNat_sub_ne_zero {a b : Char} (h : a ≠ b) :
    (a.toNat : Int) - (b.toNat : Int) ≠ 0 := by
  intro h0
  apply h
  apply Char.ext
  apply UInt32.ext
  have h1 : (a.toNat : Int) = (b.toNat : Int) := by omega
  exact Int.ofNat.inj h1

/-- Against a literal without NUL and of the same length, `strcmp` returns `0` exactly on
the literal itself. -/
theorem strcmp_eq_zero_iff (lit : List Char) (hlit : ∀ c ∈ lit, c.toNat ≠ 0) :
    ∀ s : List Char, s.length = lit.length → (strcmp s lit = 0 ↔ s = lit) := by
  induction lit with
  | nil =>
    intro s hs
    have : s = [] := List.length_eq_zero.mp hs
    subst this
    simp [strcmp]
  | cons b bs ih =>
    intro s hs
    cases s with
    | nil => simp at hs
    | cons a as =>
      have hb : b.toNat ≠ 0 := hlit b (List.mem_cons_self _ _)
      have hbs : ∀ c ∈ bs, c.toNat ≠ 0 := fun c hc => hlit c (List.mem_cons_of_mem _ hc)
      have hlen : as.length = bs.length := by simpa using hs
      by_cases hab : a = b
      · subst hab
        simp [strcmp, hb, ih hbs as hlen]
      · have hne := char_toNat_sub_ne_zero hab
        simp [strcmp, hab, hne]

/-- One disjunct of the test of lines 107-109 holds exactly when the literal is a suffix
of the name. -/
theorem ends_with_iff (lit : List Char) (hlit : ∀ c ∈ lit, c.toNat ≠ 0)
    (fileName : List Char) :
    (decide (fileName.length ≥ lit.length) &&
        decide (strcmp (fileName.drop (fileName.length - lit.length)) lit = 0)) = true ↔
      lit <:+ fileName := by
  rw [Bool.and_eq_true, decide_eq_true_eq, decide_eq_true_eq]
  constructor
  · rintro ⟨hlen, hcmp⟩
    have hl : (fileName.drop (fileName.length - lit.length)).length = lit.length := by
      rw [List.length_drop]; omega
    have := (strcmp_eq_zero_iff lit hlit _ hl).mp hcmp
    exact List.suffix_iff_eq_drop.mpr this.symm
  · intro hsuf
    have hlen : lit.length ≤ fileName.length := hsuf.length_le
    have hd := (List.suffix_iff_eq_drop.mp hsuf).symm
    refine ⟨hlen, ?_⟩
    have hl : (fileName.drop (fileName.length - lit.length)).length = lit.length := by
      rw [List.length_drop]; omega
    exact (strcmp_eq_zero_iff lit hlit _ hl).mpr hd

/-- The test of lines 107-109 holds exactly for the names ending in one of the three
literals. -/
theorem hasImageExtension_iff (fileName : List Char) :
    hasImageExtension fileName = true ↔
      (dot_jpg <:+ fileName ∨ dot_jpeg <:+ fileName ∨ dot_png <:+ fileName) := by
  have h1 := ends_with_iff dot_jpg (by decide) fileName
  have h2 := ends_with_iff dot_jpeg (by decide) fileName
  have h3 := ends_with_iff dot_png (by decide) fileName
  unfold hasImageExtension
  rw [Bool.or_eq_true, Bool.or_eq_true]
  have e1 : dot_jpg.length = 4 := rfl
  have e2 : dot_jpeg.length = 5 := rfl
  have e3 : dot_png.length = 4 := rfl
  rw [e1] at h1; rw [e2] at h2; rw [e3] at h3
  rw [h1, h2, h3, or_assoc]

/-! ## The shape of one iteration -/

theorem loopBody_skipped (hdr : Header) (folderPath outputFolderPath : List Char)
    (entry : Entry) (h : hasImageExtension entry.d_name = false) :
    loopBody hdr folderPath outputFolderPath entry = [] := by
  simp [loopBody, h]

theorem loopBody_decode_failed (hdr : Header) (folderPath outputFolderPath : List Char)
    (entry : Entry) (h : hasImageExtension entry.d_name = true)
    (hd : entry.imread.empty = true) :
    loopBody hdr folderPath outputFolderPath entry =
      [Event.imread (fullPath folderPath entry.d_name)] := by
  simp [loopBody, h, read_image_opencv, hd]

theorem loopBody_detect_failed (hdr : Header) (folderPath outputFolderPath : List Char)
    (entry : Entry) (h : hasImageExtension entry.d_name = true)
    (hd : entry.imread.empty = false) (hi : entry.inference_ret ≠ 0) :
    loopBody hdr folderPath outputFolderPath entry =
      decodeAndDetect hdr folderPath entry ++ [Event.free entry.malloc] := by
  simp [loopBody, h, read_image_opencv, hd, hi, free_if_not_null, decodeAndDetect,
    decodedImage, image_buffer_t.zero]

theorem loopBody_completed (hdr : Header) (folderPath outputFolderPath : List Char)
    (entry : Entry) (h : hasImageExtension entry.d_name = true)
    (hd : entry.imread.empty = false) (hi : entry.inference_ret = 0) :
    loopBody hdr folderPath outputFolderPath entry =
      decodeAndDetect hdr folderPath entry ++
        drawLoop hdr entry.od_results.results 0 entry.od_results.count.toNat ++
        [Event.cvtColor ColorConversion.COLOR_RGB2BGR,
         Event.imwrite (outputFileName folderPath outputFolderPath entry.d_name) 3,
         Event.free entry.malloc] := by
  simp [loopBody, h, read_image_opencv, hd, hi, free_if_not_null, decodeAndDetect,
    decodedImage, image_buffer_t.zero, write_image_opencv, write_channels]

/-! ## C1: which entries are processed -/

theorem readPaths_append (s t : List Event) :
    readPaths (s ++ t) = readPaths s ++ readPaths t := by
  simp [readPaths, List.filterMap_append]

theorem readPaths_drawLoop (hdr : Header) (results : Nat → object_detect_result) :
    ∀ (remaining i : Nat), readPaths (drawLoop hdr results i remaining) = [] := by
  intro remaining
  induction remaining with
  | zero => intro i; rfl
  | succ n ih =>
    intro i
    rw [drawLoop, readPaths_append, ih]
    simp [readPaths, drawBody]

theorem readPaths_loopBody (hdr : Header) (folderPath outputFolderPath : List Char)
    (entry : Entry) :
    readPaths (loopBody hdr folderPath outputFolderPath entry) =
      if hasImageExtension entry.d_name = true then [fullPath folderPath entry.d_name]
      else [] := by
  cases h : hasImageExtension entry.d_name with
  | false => simp [loopBody_skipped _ _ _ _ h, readPaths]
  | true =>
    cases hd : entry.imread.empty with
    | true => simp [loopBody_decode_failed _ _ _ _ h hd, readPaths]
    | false =>
      by_cases hi : entry.inference_ret = 0
      · rw [loopBody_completed _ _ _ _ h hd hi, readPaths_append, readPaths_append,
          readPaths_drawLoop]
        simp [readPaths, decodeAndDetect]
      · rw [loopBody_detect_failed _ _ _ _ h hd hi, readPaths_append]
        simp [readPaths, decodeAndDetect]

theorem readPaths_readdirLoop (hdr : Header) (folderPath outputFolderPath : List Char)
    (entries : List Entry) :
    readPaths (readdirLoop hdr folderPath outputFolderPath entries) =
      (entries.filter (fun e => hasImageExtension e.d_name)).map
        (fun e => fullPath folderPath e.d_name) := by
  induction entries with
  | nil => rfl
  | cons e rest ih =>
    rw [readdirLoop, readPaths_append, ih, readPaths_loopBody]
    cases hc : hasImageExtension e.d_name <;> simp [List.filter_cons, hc]

/-- C1. An entry of the directory is processed (the iteration starts by decoding
`folderPath/name`) exactly when its name ends, compared character by character, in
`.jpg`, `.jpeg` or `.png`; no name ends in two of them; for every other entry the
iteration issues no call at all (no decode, no detection, no drawing, no write); and over
a whole listing `processImagesInFolder` decodes exactly the entries whose name ends so,
once each and in the order of the listing. -/
theorem C1_processed_iff_image_suffix (hdr : Header) (folderPath outputFolderPath : List Char)
    (entry : Entry) (entries : List Entry) :
    ((∃ rest, loopBody hdr folderPath outputFolderPath entry =
        Event.imread (fullPath folderPath entry.d_name) :: rest) ↔
      (dot_jpg <:+ entry.d_name ∨ dot_jpeg <:+ entry.d_name ∨ dot_png <:+ entry.d_name)) ∧
    (¬ (dot_jpg <:+ entry.d_name ∨ dot_jpeg <:+ entry.d_name ∨ dot_png <:+ entry.d_name) →
      loopBody hdr folderPath outputFolderPath entry = []) ∧
    ¬ (dot_jpg <:+ entry.d_name ∧ dot_jpeg <:+ entry.d_name) ∧
    ¬ (dot_jpg <:+ entry.d_name ∧ dot_png <:+ entry.d_name) ∧
    ¬ (dot_jpeg <:+ entry.d_name ∧ dot_png <:+ entry.d_name) ∧
    readPaths (processImagesInFolder hdr folderPath (some entries) outputFolderPath) =
      (entries.filter (fun e =>
          decide (dot_jpg <:+ e.d_name ∨ dot_jpeg <:+ e.d_name ∨ dot_png <:+ e.d_name))).map
        (fun e => fullPath folderPath e.d_name) := by
  have hskip : ¬ (dot_jpg <:+ entry.d_name ∨ dot_jpeg <:+ entry.d_name ∨
      dot_png <:+ entry.d_name) → loopBody hdr folderPath outputFolderPath entry = [] := by
    intro hn
    apply loopBody_skipped
    rw [← hasImageExtension_iff] at hn
    simpa using hn
  refine ⟨⟨?_, ?_⟩, hskip, ?_, ?_, ?_, ?_⟩
  · rintro ⟨rest, hrest⟩
    by_contra hn
    rw [hskip hn] at hrest
    cases hrest
  · intro hs
    have h := (hasImageExtension_iff entry.d_name).mpr hs
    cases hd : entry.imread.empty with
    | true => exact ⟨[], loopBody_decode_failed hdr folderPath outputFolderPath entry h hd⟩
    | false =>
      by_cases hi : entry.inference_ret = 0
      · rw [loopBody_completed hdr folderPath outputFolderPath entry h hd hi]
        exact ⟨_, rfl⟩
      · rw [loopBody_detect_failed hdr folderPath outputFolderPath entry h hd hi]
        exact ⟨_, rfl⟩
  · rintro ⟨h1, h2⟩
    have h3 : dot_jpg <:+ dot_jpeg := List.suffix_of_suffix_length_le h1 h2 (by decide)
    exact absurd h3 (by decide)
  · rintro ⟨h1, h2⟩
    have h3 : dot_jpg <:+ dot_png := List.suffix_of_suffix_length_le h1 h2 (by decide)
    exact absurd h3 (by decide)
  · rintro ⟨h1, h2⟩
    have h3 : dot_png <:+ dot_jpeg := List.suffix_of_suffix_length_le h2 h1 (by decide)
    exact absurd h3 (by decide)
  · have hf : entries.filter (fun e => hasImageExtension e.d_name) =
        entries.filter (fun e =>
          decide (dot_jpg <:+ e.d_name ∨ dot_jpeg <:+ e.d_name ∨ dot_png <:+ e.d_name)) := by
      apply List.filter_congr
      intro e _
      rw [Bool.eq_iff_iff, decide_eq_true_eq]
      exact hasImageExtension_iff e.d_name
    rw [processImagesInFolder, readPaths_append, readPaths_append, readPaths_readdirLoop, hf]
    simp [readPaths]

/-- C1 at the names `b.txt`, `A.JPG`, `jpg` and `x.png.bak`, none of which is processed,
and at `a.jpg`, which is. -/
theorem C1_processed_iff_image_suffix_witness :
    loopBody sampleHeader sampleIn sampleOut (sampleEntry ['b', '.', 't', 'x', 't']) = [] ∧
    loopBody sampleHeader sampleIn sampleOut (sampleEntry ['A', '.', 'J', 'P', 'G']) = [] ∧
    loopBody sampleHeader sampleIn sampleOut (sampleEntry ['j', 'p', 'g']) = [] ∧
    loopBody sampleHeader sampleIn sampleOut
      (sampleEntry ['x', '.', 'p', 'n', 'g', '.', 'b', 'a', 'k']) = [] ∧
    ∃ rest, loopBody sampleHeader sampleIn sampleOut (sampleEntry name_a_jpg) =
      Event.imread (fullPath sampleIn name_a_jpg) :: rest :=
  ⟨(C1_processed_iff_image_suffix sampleHeader sampleIn sampleOut
      (sampleEntry ['b', '.', 't', 'x', 't']) []).2.1 (by decide),
   (C1_processed_iff_image_suffix sampleHeader sampleIn sampleOut
      (sampleEntry ['A', '.', 'J', 'P', 'G']) []).2.1 (by decide),
   (C1_processed_iff_image_suffix sampleHeader sampleIn sampleOut
      (sampleEntry ['j', 'p', 'g']) []).2.1 (by decide),
   (C1_processed_iff_image_suffix sampleHeader sampleIn sampleOut
      (sampleEntry ['x', '.', 'p', 'n', 'g', '.', 'b', 'a', 'k']) []).2.1 (by decide),
   (C1_processed_iff_image_suffix sampleHeader sampleIn sampleOut
      (sampleEntry name_a_jpg) []).1.mpr (by decide)⟩

/-! ## Lemmas on `find_last_of` -/

theorem find_last_of_from_absent (chars : List Char) :
    ∀ (s : List Char) (i : Nat) (found : Option Nat), (∀ c ∈ s, c ∉ chars) →
      find_last_of_from chars s i found = found := by
  intro s
  induction s with
  | nil => intro i found _; rfl
  | cons c rest ih =>
    intro i found h
    have hc : c ∉ chars := h c (List.mem_cons_self _ _)
    simp only [find_last_of_from, hc, if_false]
    exact ih (i + 1) found (fun x hx => h x (List.mem_cons_of_mem _ hx))

theorem find_last_of_from_last (chars : List Char) (c : Char) (hc : c ∈ chars)
    (after : List Char) (hafter : ∀ x ∈ after, x ∉ chars) :
    ∀ (before : List Char) (i : Nat) (found : Option Nat),
      find_last_of_from chars (before ++ c :: after) i found = some (i + before.length) := by
  intro before
  induction before with
  | nil =>
    intro i found
    simp only [List.nil_append, find_last_of_from, hc, if_true, List.length_nil, Nat.add_zero]
    exact find_last_of_from_absent chars after (i + 1) (some i) hafter
  | cons b rest ih =>
    intro i found
    show find_last_of_from chars (rest ++ c :: after) (i + 1)
      (if b ∈ chars then some i else found) = some (i + (rest.length + 1))
    rw [ih]
    congr 1
    omega

theorem find_last_of_last (chars : List Char) (c : Char) (hc : c ∈ chars)
    (before after : List Char) (hafter : ∀ x ∈ after, x ∉ chars) :
    find_last_of (before ++ c :: after) chars = some before.length := by
  unfold find_last_of
  rw [find_last_of_from_last chars c hc after hafter]
  simp

theorem extract_of_parts (dir base ext : List Char)
    (hbase : ∀ c ∈ base, c ∉ separators) (hext : ∀ c ∈ ext, c ∉ separators)
    (hdot : '.' ∉ ext) :
    extractFileNameWithoutExtension (dir ++ ['/'] ++ (base ++ '.' :: ext)) = base := by
  have hsep : ∀ x ∈ base ++ '.' :: ext, x ∉ separators := by
    intro x hx
    rcases List.mem_append.mp hx with h | h
    · exact hbase x h
    · rcases List.mem_cons.mp h with h | h
      · subst h; decide
      · exact hext x h
  have h1 : find_last_of (dir ++ ['/'] ++ (base ++ '.' :: ext)) separators =
      some dir.length := by
    have := find_last_of_last separators '/' (by decide) dir (base ++ '.' :: ext) hsep
    simpa using this
  have h2 : find_last_of (base ++ '.' :: ext) ['.'] = some base.length := by
    apply find_last_of_last ['.'] '.' (by simp) base ext
    intro x hx hmem
    have : x = '.' := by simpa using hmem
    subst this
    exact hdot hx
  unfold extractFileNameWithoutExtension
  rw [h1]
  have h3 : List.drop (dir.length + 1) (dir ++ ['/'] ++ (base ++ '.' :: ext)) =
      base ++ '.' :: ext := by
    have : (dir ++ ['/']).length = dir.length + 1 := by simp
    rw [← this, List.drop_left]
  simp only [h3, h2]
  exact List.take_left _ _

/-! ## C2: the derived output path -/

/-- C2, as the code has it. For every input folder, output folder and entry name that
holds no `/` and no backslash and ends in `.jpg`, `.jpeg` or `.png`, the name splits as
`base ++ "." ++ ext` with no `.` in `ext` (so `base` is the name without its final
extension, and `ext` is `jpg`, `jpeg` or `png`), `extractFileNameWithoutExtension` of
`folderPath/name` is `base`, and the output path is `outputFolderPath/base_out.png`,
whatever the folder path and the input format. -/
theorem C2_output_path_of_plain_name (folderPath outputFolderPath name : List Char)
    (hslash : '/' ∉ name) (hback : backslash ∉ name)
    (hends : dot_jpg <:+ name ∨ dot_jpeg <:+ name ∨ dot_png <:+ name) :
    ∃ base ext, name = base ++ '.' :: ext ∧ '.' ∉ ext ∧
      (ext = ['j', 'p', 'g'] ∨ ext = ['j', 'p', 'e', 'g'] ∨ ext = ['p', 'n', 'g']) ∧
      extractFileNameWithoutExtension (fullPath folderPath name) = base ∧
      outputFileName folderPath outputFolderPath name =
        outputFolderPath ++ ['/'] ++ base ++ out_png := by
  have key : ∀ base ext : List Char, name = base ++ '.' :: ext → '.' ∉ ext →
      extractFileNameWithoutExtension (fullPath folderPath name) = base ∧
      outputFileName folderPath outputFolderPath name =
        outputFolderPath ++ ['/'] ++ base ++ out_png := by
    intro base ext hname hdot
    have hsep : ∀ c ∈ name, c ∉ separators := by
      intro c hc hmem
      rcases List.mem_cons.mp hmem with h | h
      · subst h; exact hslash hc
      · have : c = backslash := by simpa using h
        subst this; exact hback hc
    have hbase : ∀ c ∈ base, c ∉ separators := fun c hc =>
      hsep c (by rw [hname]; exact List.mem_append_left _ hc)
    have hext : ∀ c ∈ ext, c ∉ separators := fun c hc =>
      hsep c (by rw [hname]; exact List.mem_append_right _ (List.mem_cons_of_mem _ hc))
    have h := extract_of_parts folderPath base ext hbase hext hdot
    have h' : extractFileNameWithoutExtension (fullPath folderPath name) = base := by
      rw [hname]; exact h
    exact ⟨h', by rw [outputFileName, h']⟩
  rcases hends with ⟨base, hb⟩ | ⟨base, hb⟩ | ⟨base, hb⟩
  · have hn : name = base ++ '.' :: ['j', 'p', 'g'] := hb.symm
    exact ⟨base, _, hn, by decide, Or.inl rfl, key base _ hn (by decide)⟩
  · have hn : name = base ++ '.' :: ['j', 'p', 'e', 'g'] := hb.symm
    exact ⟨base, _, hn, by decide, Or.inr (Or.inl rfl), key base _ hn (by decide)⟩
  · have hn : name = base ++ '.' :: ['p', 'n', 'g'] := hb.symm
    exact ⟨base, _, hn, by decide, Or.inr (Or.inr rfl), key base _ hn (by decide)⟩

/-- C2 at the name `a.b.jpeg` in the folder `in`, written to the folder `out`. -/
theorem C2_output_path_of_plain_name_witness :
    ∃ base ext, ['a', '.', 'b', '.', 'j', 'p', 'e', 'g'] = base ++ '.' :: ext ∧ '.' ∉ ext ∧
      (ext = ['j', 'p', 'g'] ∨ ext = ['j', 'p', 'e', 'g'] ∨ ext = ['p', 'n', 'g']) ∧
      extractFileNameWithoutExtension
        (fullPath sampleIn ['a', '.', 'b', '.', 'j', 'p', 'e', 'g']) = base ∧
      outputFileName sampleIn sampleOut ['a', '.', 'b', '.', 'j', 'p', 'e', 'g'] =
        sampleOut ++ ['/'] ++ base ++ out_png :=
  C2_output_path_of_plain_name sampleIn sampleOut ['a', '.', 'b', '.', 'j', 'p', 'e', 'g']
    (by decide) (by decide) (by decide)

/-- C2 as stated fails at the entry name `a\b.jpg`: it holds no `/` and ends in `.jpg`,
its final extension is `jpg` and the name without it is `a\b`, yet the stem extracted
from `in/a\b.jpg` is `b` and the output path is `out/b_out.png`, not
`out/a\b_out.png`. -/
theorem C2_backslash_counterexample :
    '/' ∉ backslashName ∧ dot_jpg <:+ backslashName ∧
    backslashName = ['a', backslash, 'b'] ++ '.' :: ['j', 'p', 'g'] ∧
    '.' ∉ ['j', 'p', 'g'] ∧
    extractFileNameWithoutExtension (fullPath sampleIn backslashName) = ['b'] ∧
    outputFileName sampleIn sampleOut backslashName = sampleOut ++ ['/'] ++ ['b'] ++ out_png ∧
    outputFileName sampleIn sampleOut backslashName ≠
      sampleOut ++ ['/'] ++ ['a', backslash, 'b'] ++ out_png := by
  decide

/-! ## The writes of a run -/

theorem writePaths_append (s t : List Event) :
    writePaths (s ++ t) = writePaths s ++ writePaths t := by
  simp [writePaths, List.filterMap_append]

theorem writePaths_drawLoop (hdr : Header) (results : Nat → object_detect_result) :
    ∀ (remaining i : Nat), writePaths (drawLoop hdr results i remaining) = [] := by
  intro remaining
  induction remaining with
  | zero => intro i; rfl
  | succ n ih =>
    intro i
    rw [drawLoop, writePaths_append, ih]
    simp [writePaths, drawBody]

theorem writePaths_loopBody (hdr : Header) (folderPath outputFolderPath : List Char)
    (entry : Entry) :
    writePaths (loopBody hdr folderPath outputFolderPath entry) =
      if completes entry = true then [outputFileName folderPath outputFolderPath entry.d_name]
      else [] := by
  cases h : hasImageExtension entry.d_name with
  | false => simp [loopBody_skipped _ _ _ _ h, completes, h, writePaths]
  | true =>
    cases hd : entry.imread.empty with
    | true => simp [loopBody_decode_failed _ _ _ _ h hd, completes, hd, writePaths]
    | false =>
      by_cases hi : entry.inference_ret = 0
      · rw [loopBody_completed _ _ _ _ h hd hi, writePaths_append, writePaths_append,
          writePaths_drawLoop]
        simp [completes, h, hd, hi, writePaths, decodeAndDetect]
      · rw [loopBody_detect_failed _ _ _ _ h hd hi, writePaths_append]
        simp [completes, hi, writePaths, decodeAndDetect]

theorem writePaths_readdirLoop (hdr : Header) (folderPath outputFolderPath : List Char)
    (entries : List Entry) :
    writePaths (readdirLoop hdr folderPath outputFolderPath entries) =
      (entries.filter completes).map
        (fun e => outputFileName folderPath outputFolderPath e.d_name) := by
  induction entries with
  | nil => rfl
  | cons e rest ih =>
    rw [readdirLoop, writePaths_append, ih, writePaths_loopBody]
    cases hc : completes e <;> simp [List.filter_cons, hc]

theorem writePaths_processImagesInFolder (hdr : Header)
    (folderPath outputFolderPath : List Char) (entries : List Entry) :
    writePaths (processImagesInFolder hdr folderPath (some entries) outputFolderPath) =
      (entries.filter completes).map
        (fun e => outputFileName folderPath outputFolderPath e.d_name) := by
  rw [processImagesInFolder, writePaths_append, writePaths_append, writePaths_readdirLoop]
  simp [writePaths]

/-! ## C3: one write per input file -/

/-- C3, as the code has it. For every listing in which every file with an image
extension decodes and is detected successfully, `processImagesInFolder` issues exactly one
write per such file, in the order of the listing and to the path derived from its name, so
the number of writes is the number of qualifying files; and for two names without `/` and
backslash, split at their final `.`, the derived output paths coincide exactly when the
parts before the final `.` coincide: the derivation is injective on the names without
their extension, not on the names. -/
theorem C3_one_write_per_input (hdr : Header) (folderPath outputFolderPath : List Char)
    (entries : List Entry)
    (hall : ∀ e ∈ entries, hasImageExtension e.d_name = true →
      e.imread.empty = false ∧ e.inference_ret = 0) :
    writePaths (processImagesInFolder hdr folderPath (some entries) outputFolderPath) =
      (entries.filter (fun e => hasImageExtension e.d_name)).map
        (fun e => outputFileName folderPath outputFolderPath e.d_name) ∧
    (writePaths (processImagesInFolder hdr folderPath (some entries) outputFolderPath)).length =
      (entries.filter (fun e => hasImageExtension e.d_name)).length ∧
    ∀ base₁ ext₁ base₂ ext₂ : List Char,
      (∀ c ∈ base₁ ++ ext₁ ++ base₂ ++ ext₂, c ∉ separators) → '.' ∉ ext₁ → '.' ∉ ext₂ →
      (outputFileName folderPath outputFolderPath (base₁ ++ '.' :: ext₁) =
          outputFileName folderPath outputFolderPath (base₂ ++ '.' :: ext₂) ↔
        base₁ = base₂) := by
  have hfilter : entries.filter completes =
      entries.filter (fun e => hasImageExtension e.d_name) := by
    apply List.filter_congr
    intro e he
    cases h : hasImageExtension e.d_name with
    | false => simp [completes, h]
    | true =>
      obtain ⟨hd, hi⟩ := hall e he h
      simp [completes, h, hd, hi]
  have hw := writePaths_processImagesInFolder hdr folderPath outputFolderPath entries
  rw [hfilter] at hw
  refine ⟨hw, by rw [hw, List.length_map], ?_⟩
  intro base₁ ext₁ base₂ ext₂ hsep hdot₁ hdot₂
  have hb₁ : ∀ c ∈ base₁, c ∉ separators := fun c hc => hsep c (by simp [hc])
  have he₁ : ∀ c ∈ ext₁, c ∉ separators := fun c hc => hsep c (by simp [hc])
  have hb₂ : ∀ c ∈ base₂, c ∉ separators := fun c hc => hsep c (by simp [hc])
  have he₂ : ∀ c ∈ ext₂, c ∉ separators := fun c hc => hsep c (by simp [hc])
  have h₁ := extract_of_parts folderPath base₁ ext₁ hb₁ he₁ hdot₁
  have h₂ := extract_of_parts folderPath base₂ ext₂ hb₂ he₂ hdot₂
  unfold outputFileName fullPath
  rw [h₁, h₂]
  constructor
  · intro h
    have h' := List.append_cancel_right h
    exact List.append_cancel_left h'
  · intro h
    rw [h]

/-- C3 at the listing `a.jpg`, `b.txt`, `c.png`. -/
theorem C3_one_write_per_input_witness :
    writePaths (processImagesInFolder sampleHeader sampleIn
        (some [sampleEntry name_a_jpg, sampleEntry ['b', '.', 't', 'x', 't'],
          sampleEntry ['c', '.', 'p', 'n', 'g']]) sampleOut) =
      [out_a_out_png, ['o', 'u', 't', '/', 'c', '_', 'o', 'u', 't', '.', 'p', 'n', 'g']] :=
  (C3_one_write_per_input sampleHeader sampleIn sampleOut
    [sampleEntry name_a_jpg, sampleEntry ['b', '.', 't', 'x', 't'],
      sampleEntry ['c', '.', 'p', 'n', 'g']] (by decide)).1.trans (by decide)

/-- C3 as stated fails at the listing `a.jpg`, `a.png`: the two names are distinct, both
have an image extension, both files decode and are detected, and both writes go to
`out/a_out.png`, so one output file stands for two input files. -/
theorem C3_same_stem_counterexample :
    name_a_jpg ≠ name_a_png ∧
    hasImageExtension name_a_jpg = true ∧ hasImageExtension name_a_png = true ∧
    outputFileName sampleIn sampleOut name_a_jpg =
      outputFileName sampleIn sampleOut name_a_png ∧
    writePaths (processImagesInFolder sampleHeader sampleIn
        (some [sampleEntry name_a_jpg, sampleEntry name_a_png]) sampleOut) =
      [out_a_out_png, out_a_out_png] ∧
    (writePaths (processImagesInFolder sampleHeader sampleIn
        (some [sampleEntry name_a_jpg, sampleEntry name_a_png]) sampleOut)).dedup.length = 1 ∧
    ([sampleEntry name_a_jpg, sampleEntry name_a_png].filter
        (fun e => hasImageExtension e.d_name)).length = 2 := by
  decide

/-! ## C4: a failure is confined to its file -/

theorem readdirLoop_append (hdr : Header) (folderPath outputFolderPath : List Char)
    (before after : List Entry) :
    readdirLoop hdr folderPath outputFolderPath (before ++ after) =
      readdirLoop hdr folderPath outputFolderPath before ++
        readdirLoop hdr folderPath outputFolderPath after := by
  induction before with
  | nil => rfl
  | cons e rest ih => simp [readdirLoop, ih]

/-- C4. For every listing and every outcome of decode, detect and write per entry:
the paths written are those of the entries with an image extension whose decode and
detect both returned 0, once each and in the order of the listing; an entry whose decode
fails issues the `cv::imread` call and nothing else (no detect, no draw, no write); an
entry whose detect fails issues the decode, the detector call and the release of its
buffer and nothing else (no draw, no write); and the run over `before`, `e`, `after`
is the run over `before`, then the iteration of `e`, then the run over `after` alone, so
what `e` does leaves the processing of every later entry as it is. -/
theorem C4_failure_isolation (hdr : Header) (folderPath outputFolderPath : List Char)
    (entries : List Entry) :
    writePaths (processImagesInFolder hdr folderPath (some entries) outputFolderPath) =
      (entries.filter (fun e => hasImageExtension e.d_name && !e.imread.empty &&
          decide (e.inference_ret = 0))).map
        (fun e => outputFileName folderPath outputFolderPath e.d_name) ∧
    (∀ e : Entry, hasImageExtension e.d_name = true → e.imread.empty = true →
      loopBody hdr folderPath outputFolderPath e =
        [Event.imread (fullPath folderPath e.d_name)]) ∧
    (∀ e : Entry, hasImageExtension e.d_name = true → e.imread.empty = false →
      e.inference_ret ≠ 0 →
      loopBody hdr folderPath outputFolderPath e =
        [Event.imread (fullPath folderPath e.d_name),
         Event.cvtColor (if e.imread.channels = 4 then ColorConversion.COLOR_BGRA2RGB
           else ColorConversion.COLOR_BGR2RGB),
         Event.malloc e.malloc,
         Event.inference_yolov7_model (decodedImage hdr e),
         Event.free e.malloc]) ∧
    (∀ (before after : List Entry) (e : Entry), entries = before ++ e :: after →
      processImagesInFolder hdr folderPath (some entries) outputFolderPath =
        [Event.opendir folderPath] ++ readdirLoop hdr folderPath outputFolderPath before ++
          loopBody hdr folderPath outputFolderPath e ++
          readdirLoop hdr folderPath outputFolderPath after ++ [Event.closedir]) := by
  refine ⟨?_, ?_, ?_, ?_⟩
  · exact writePaths_processImagesInFolder hdr folderPath outputFolderPath entries
  · intro e h hd
    exact loopBody_decode_failed hdr folderPath outputFolderPath e h hd
  · intro e h hd hi
    rw [loopBody_detect_failed hdr folderPath outputFolderPath e h hd hi]
    rfl
  · intro before after e he
    subst he
    simp [processImagesInFolder, readdirLoop_append, readdirLoop]

/-- C4 at the listing `a.jpg` (detector fails), `bad.png` (corrupt), `a.png` (fine): only
the last one is written. -/
theorem C4_failure_isolation_witness :
    writePaths (processImagesInFolder sampleHeader sampleIn
        (some [undetectedEntry name_a_jpg, corruptEntry name_bad_png,
          sampleEntry name_a_png]) sampleOut) = [out_a_out_png] :=
  (C4_failure_isolation sampleHeader sampleIn sampleOut
    [undetectedEntry name_a_jpg, corruptEntry name_bad_png, sampleEntry name_a_png]).1.trans
    (by decide)

/-! ## C5: every buffer is released once -/

theorem filter_memory_drawLoop (hdr : Header) (results : Nat → object_detect_result) :
    ∀ (remaining i : Nat),
      (drawLoop hdr results i remaining).filter isMemoryEvent = [] := by
  intro remaining
  induction remaining with
  | zero => intro i; rfl
  | succ n ih =>
    intro i
    rw [drawLoop, List.filter_append, ih]
    simp [drawBody, isMemoryEvent]

theorem filter_memory_loopBody (hdr : Header) (folderPath outputFolderPath : List Char)
    (e : Entry) :
    (loopBody hdr folderPath outputFolderPath e).filter isMemoryEvent =
      if hasImageExtension e.d_name = true then
        if e.imread.empty = true then [Event.imread (fullPath folderPath e.d_name)]
        else [Event.imread (fullPath folderPath e.d_name), Event.malloc e.malloc,
          Event.free e.malloc]
      else [] := by
  cases h : hasImageExtension e.d_name with
  | false => simp [loopBody_skipped _ _ _ _ h]
  | true =>
    cases hd : e.imread.empty with
    | true => simp [loopBody_decode_failed _ _ _ _ h hd, isMemoryEvent]
    | false =>
      by_cases hi : e.inference_ret = 0
      · rw [loopBody_completed _ _ _ _ h hd hi, List.filter_append, List.filter_append,
          filter_memory_drawLoop]
        simp [decodeAndDetect, isMemoryEvent]
      · rw [loopBody_detect_failed _ _ _ _ h hd hi, List.filter_append]
        simp [decodeAndDetect, isMemoryEvent]

theorem filter_memory_readdirLoop (hdr : Header) (folderPath outputFolderPath : List Char)
    (entries : List Entry) :
    (readdirLoop hdr folderPath outputFolderPath entries).filter isMemoryEvent =
      entries.flatMap (fun e =>
        if hasImageExtension e.d_name = true then
          if e.imread.empty = true then [Event.imread (fullPath folderPath e.d_name)]
          else [Event.imread (fullPath folderPath e.d_name), Event.malloc e.malloc,
            Event.free e.malloc]
        else []) := by
  induction entries with
  | nil => rfl
  | cons e rest ih =>
    rw [readdirLoop, List.filter_append, ih, filter_memory_loopBody, List.flatMap_cons]

theorem count_heap_readdirLoop (hdr : Header) (folderPath outputFolderPath : List Char)
    (entries : List Entry) :
    (readdirLoop hdr folderPath outputFolderPath entries).countP isFree =
        (entries.filter decodes).length ∧
    (readdirLoop hdr folderPath outputFolderPath entries).countP isMalloc =
        (entries.filter decodes).length := by
  have hdraw : ∀ (results : Nat → object_detect_result) (remaining i : Nat),
      (drawLoop hdr results i remaining).countP isFree = 0 ∧
      (drawLoop hdr results i remaining).countP isMalloc = 0 := by
    intro results remaining
    induction remaining with
    | zero => intro i; exact ⟨rfl, rfl⟩
    | succ n ih =>
      intro i
      rw [drawLoop, List.countP_append, List.countP_append, (ih (i + 1)).1, (ih (i + 1)).2]
      simp [drawBody, isFree, isMalloc, List.countP_cons]
  induction entries with
  | nil => exact ⟨rfl, rfl⟩
  | cons e rest ih =>
    rw [readdirLoop, List.countP_append, List.countP_append, ih.1, ih.2]
    cases h : hasImageExtension e.d_name with
    | false => simp [loopBody_skipped _ _ _ _ h, decodes, h, List.filter_cons]
    | true =>
      cases hd : e.imread.empty with
      | true =>
        simp [loopBody_decode_failed _ _ _ _ h hd, decodes, h, hd, List.filter_cons,
          isFree, isMalloc, List.countP_cons]
      | false =>
        by_cases hi : e.inference_ret = 0
        · rw [loopBody_completed _ _ _ _ h hd hi]
          simp only [List.countP_append, (hdraw _ _ _).1, (hdraw _ _ _).2]
          simp [decodeAndDetect, decodes, h, hd, List.filter_cons, isFree, isMalloc,
            List.countP_cons, Nat.add_comm]
        · rw [loopBody_detect_failed _ _ _ _ h hd hi]
          simp [decodeAndDetect, decodes, h, hd, List.filter_cons, isFree, isMalloc,
            List.countP_cons, Nat.add_comm]

/-- C5. For every listing and every outcome of decode, detect and write per entry: the
calls to `cv::imread`, `malloc` and `free` of a run are, entry by entry in the order of the
listing, nothing for a name without image extension, the `cv::imread` alone for a file that
fails to decode, and `cv::imread`, `malloc a`, `free a` for a file that decodes, so each
buffer is released once, before the next entry is read, and never twice; the numbers of
`free` and of `malloc` calls both equal the number of successful decodes; no such call is
made when the directory cannot be opened; and `read_image_opencv` returns -1 without
allocating, leaving the buffer untouched, exactly when the matrix read is empty, and
otherwise returns 0 with the allocated address stored in the buffer. -/
theorem C5_buffers_released_once (hdr : Header) (folderPath outputFolderPath : List Char)
    (entries : List Entry) :
    (processImagesInFolder hdr folderPath (some entries) outputFolderPath).filter
        isMemoryEvent =
      entries.flatMap (fun e =>
        if hasImageExtension e.d_name = true then
          if e.imread.empty = true then [Event.imread (fullPath folderPath e.d_name)]
          else [Event.imread (fullPath folderPath e.d_name), Event.malloc e.malloc,
            Event.free e.malloc]
        else []) ∧
    (processImagesInFolder hdr folderPath (some entries) outputFolderPath).countP isFree =
      (entries.filter (fun e => hasImageExtension e.d_name && !e.imread.empty)).length ∧
    (processImagesInFolder hdr folderPath (some entries) outputFolderPath).countP isMalloc =
      (entries.filter (fun e => hasImageExtension e.d_name && !e.imread.empty)).length ∧
    (processImagesInFolder hdr folderPath none outputFolderPath).filter isMemoryEvent = [] ∧
    (∀ (cv_img : Mat) (addr : Nat) (path : List Char) (image : image_buffer_t),
      (cv_img.empty = true →
        read_image_opencv hdr cv_img addr path image = (-1, image, [Event.imread path])) ∧
      (cv_img.empty = false →
        (read_image_opencv hdr cv_img addr path image).1 = 0 ∧
        (read_image_opencv hdr cv_img addr path image).2.1.virt_addr = some addr ∧
        (read_image_opencv hdr cv_img addr path image).2.2.filter isMemoryEvent =
          [Event.imread path, Event.malloc addr])) := by
  have hc := count_heap_readdirLoop hdr folderPath outputFolderPath entries
  refine ⟨?_, ?_, ?_, ?_, ?_⟩
  · rw [processImagesInFolder, List.filter_append, List.filter_append,
      filter_memory_readdirLoop]
    simp [isMemoryEvent]
  · rw [processImagesInFolder, List.countP_append, List.countP_append, hc.1]
    simp [isFree, List.countP_cons]
    rfl
  · rw [processImagesInFolder, List.countP_append, List.countP_append, hc.2]
    simp [isMalloc, List.countP_cons]
    rfl
  · simp [processImagesInFolder, isMemoryEvent]
  · intro cv_img addr path image
    constructor
    · intro he
      simp [read_image_opencv, he]
    · intro he
      simp [read_image_opencv, he, isMemoryEvent]

/-- C5 at a listing with a corrupt file, a file on which detection fails, a file that
cannot be written and a text file: two buffers are allocated and two are released. -/
theorem C5_buffers_released_once_witness :
    (processImagesInFolder sampleHeader sampleIn
        (some [corruptEntry name_bad_png, undetectedEntry name_a_jpg,
          sampleEntry ['b', '.', 't', 'x', 't'], unwrittenEntry name_a_png])
        sampleOut).countP isFree = 2 :=
  (C5_buffers_released_once sampleHeader sampleIn sampleOut
    [corruptEntry name_bad_png, undetectedEntry name_a_jpg,
      sampleEntry ['b', '.', 't', 'x', 't'], unwrittenEntry name_a_png]).2.1.trans (by decide)

/-! ## C6 and C7: the exit status of `main` -/

/-- C6. The value `main` returns is non-zero exactly when `init_yolov7_model` returns a
non-zero code: when the detector initialises, `main` returns 0 for every listing, every
outcome of decode, detect and write per file, every status of `release_yolov7_model`, and
also when the directory cannot be opened; when it does not, `main` returns -1. -/
theorem C6_exit_status (hdr : Header) (w : World) :
    ((main hdr w).1 ≠ 0 ↔ w.init_yolov7_model ≠ 0) ∧
    (w.init_yolov7_model = 0 → (main hdr w).1 = 0) ∧
    (w.init_yolov7_model ≠ 0 → (main hdr w).1 = -1) := by
  by_cases h : w.init_yolov7_model = 0
  · simp [main, h]
  · simp [main, h]

/-- C6 at a run where a file fails to decode, detection fails on another, a third cannot
be written and the release of the detector fails: `main` returns 0. -/
theorem C6_exit_status_witness : (main sampleHeader everythingFailsWorld).1 = 0 :=
  (C6_exit_status sampleHeader everythingFailsWorld).2.1 (by decide)

/-- C7, as the code has it. `main` calls `init_post_process` first and discards what it
returns: a run in which it reports the status `s` is the same run, value returned and
calls issued, as one in which it reports 0; the call of `init_yolov7_model` follows in
every run; and the value returned is non-zero exactly when `init_yolov7_model` fails. -/
theorem C7_post_process_status_discarded (hdr : Header) (w : World) (s : Int) :
    main hdr { w with init_post_process := s } = main hdr { w with init_post_process := 0 } ∧
    (∃ rest, (main hdr { w with init_post_process := s }).2 =
      Event.init_post_process :: Event.init_yolov7_model modelPath :: rest) ∧
    ((main hdr { w with init_post_process := s }).1 ≠ 0 ↔ w.init_yolov7_model ≠ 0) := by
  refine ⟨rfl, ?_, ?_⟩
  · by_cases h : w.init_yolov7_model = 0
    · simp [main, h]
    · simp [main, h]
  · by_cases h : w.init_yolov7_model = 0
    · simp [main, h]
    · simp [main, h]

/-- C7 as stated fails at a run where `init_post_process` reports -1 and the detector
initialises: `main` returns 0, calls `init_yolov7_model`, and decodes, detects and writes
the file `a.jpg` of the directory. -/
theorem C7_post_process_counterexample :
    postProcessFailsWorld.init_post_process ≠ 0 ∧
    (main sampleHeader postProcessFailsWorld).1 = 0 ∧
    Event.init_yolov7_model modelPath ∈ (main sampleHeader postProcessFailsWorld).2 ∧
    Event.imread (fullPath imageFolder name_a_jpg) ∈
      (main sampleHeader postProcessFailsWorld).2 ∧
    Event.imwrite (outputFileName imageFolder outputFolder name_a_jpg) 3 ∈
      (main sampleHeader postProcessFailsWorld).2 := by
  decide

/-! ## C8: the life cycle of the detector -/

theorem isFileWork_drawLoop (hdr : Header) (results : Nat → object_detect_result) :
    ∀ (remaining i : Nat), ∀ ev ∈ drawLoop hdr results i remaining, isFileWork ev = true := by
  intro remaining
  induction remaining with
  | zero => intro i ev hev; simp [drawLoop] at hev
  | succ n ih =>
    intro i ev hev
    rw [drawLoop] at hev
    rcases List.mem_append.mp hev with h | h
    · simp only [drawBody, List.mem_cons, List.mem_singleton, List.not_mem_nil,
        or_false] at h
      rcases h with h | h <;> subst h <;> rfl
    · exact ih (i + 1) ev h

theorem isFileWork_loopBody (hdr : Header) (folderPath outputFolderPath : List Char)
    (e : Entry) : ∀ ev ∈ loopBody hdr folderPath outputFolderPath e, isFileWork ev = true := by
  intro ev hev
  cases h : hasImageExtension e.d_name with
  | false => simp [loopBody_skipped _ _ _ _ h] at hev
  | true =>
    cases hd : e.imread.empty with
    | true =>
      rw [loopBody_decode_failed _ _ _ _ h hd] at hev
      simp only [List.mem_singleton] at hev
      subst hev; rfl
    | false =>
      have hdd : ∀ x ∈ decodeAndDetect hdr folderPath e, isFileWork x = true := by
        intro x hx
        simp only [decodeAndDetect, List.mem_cons, List.mem_singleton, List.not_mem_nil,
          or_false] at hx
        rcases hx with hx | hx | hx | hx <;> subst hx <;> rfl
      by_cases hi : e.inference_ret = 0
      · rw [loopBody_completed _ _ _ _ h hd hi] at hev
        rcases List.mem_append.mp hev with h1 | h1
        · rcases List.mem_append.mp h1 with h2 | h2
          · exact hdd ev h2
          · exact isFileWork_drawLoop hdr _ _ _ ev h2
        · simp only [List.mem_cons, List.mem_singleton, List.not_mem_nil, or_false] at h1
          rcases h1 with h1 | h1 | h1 <;> subst h1 <;> rfl
      · rw [loopBody_detect_failed _ _ _ _ h hd hi] at hev
        rcases List.mem_append.mp hev with h1 | h1
        · exact hdd ev h1
        · simp only [List.mem_singleton] at h1
          subst h1; rfl

theorem isFileWork_readdirLoop (hdr : Header) (folderPath outputFolderPath : List Char)
    (entries : List Entry) :
    ∀ ev ∈ readdirLoop hdr folderPath outputFolderPath entries, isFileWork ev = true := by
  induction entries with
  | nil => intro ev hev; simp [readdirLoop] at hev
  | cons e rest ih =>
    intro ev hev
    rw [readdirLoop] at hev
    rcases List.mem_append.mp hev with h | h
    · exact isFileWork_loopBody hdr folderPath outputFolderPath e ev h
    · exact ih ev h

/-- No call of `processImagesInFolder` initialises or releases the detector. -/
theorem lifecycle_free_processImagesInFolder (hdr : Header)
    (folderPath outputFolderPath : List Char) (dir : Option (List Entry)) :
    (processImagesInFolder hdr folderPath dir outputFolderPath).countP isInitModel = 0 ∧
    (processImagesInFolder hdr folderPath dir outputFolderPath).countP isRelease = 0 := by
  cases dir with
  | none => exact ⟨rfl, rfl⟩
  | some entries =>
    have hloop := isFileWork_readdirLoop hdr folderPath outputFolderPath entries
    have h1 : (readdirLoop hdr folderPath outputFolderPath entries).countP isInitModel = 0 := by
      rw [List.countP_eq_zero]
      intro ev hev
      have := hloop ev hev
      cases ev <;> simp_all [isFileWork, isInitModel]
    have h2 : (readdirLoop hdr folderPath outputFolderPath entries).countP isRelease = 0 := by
      rw [List.countP_eq_zero]
      intro ev hev
      have := hloop ev hev
      cases ev <;> simp_all [isFileWork, isRelease]
    constructor
    · rw [processImagesInFolder, List.countP_append, List.countP_append, h1]
      rfl
    · rw [processImagesInFolder, List.countP_append, List.countP_append, h2]
      rfl

/-- C8. In every run of `main`, seen as the list of its calls: `init_yolov7_model` is
called exactly once; when it returns 0, `release_yolov7_model` is called exactly once and
the run splits as calls without detection, the initialisation, further calls, the release,
calls without detection, so every `inference_yolov7_model` call lies between the two; when
it returns a non-zero code, the run consists of `init_post_process` and
`init_yolov7_model` alone, so the detector is never released and no entry is decoded,
detected, drawn on or written. -/
theorem C8_detector_lifecycle (hdr : Header) (w : World) :
    (main hdr w).2.countP isInitModel = 1 ∧
    (w.init_yolov7_model = 0 →
      (main hdr w).2.countP isRelease = 1 ∧
      ∃ pre mid post, (main hdr w).2 =
          pre ++ Event.init_yolov7_model modelPath :: mid ++
            Event.release_yolov7_model :: post ∧
        (∀ ev ∈ pre, isInference ev = false) ∧ (∀ ev ∈ post, isInference ev = false)) ∧
    (w.init_yolov7_model ≠ 0 →
      (main hdr w).2 = [Event.init_post_process, Event.init_yolov7_model modelPath] ∧
      (main hdr w).2.countP isRelease = 0 ∧
      ∀ ev ∈ (main hdr w).2, isFileWork ev = false) := by
  have hp := lifecycle_free_processImagesInFolder hdr imageFolder outputFolder w.opendir
  by_cases h : w.init_yolov7_model = 0
  · have htrace : (main hdr w).2 =
        [Event.init_post_process, Event.init_yolov7_model modelPath] ++
          processImagesInFolder hdr imageFolder w.opendir outputFolder ++
          [Event.release_yolov7_model, Event.deinit_post_process] := by
      simp [main, h]
    refine ⟨?_, ?_, fun hn => absurd h hn⟩
    · rw [htrace, List.countP_append, List.countP_append, hp.1]
      rfl
    · intro _
      refine ⟨?_, [Event.init_post_process],
        processImagesInFolder hdr imageFolder w.opendir outputFolder,
        [Event.deinit_post_process], ?_, ?_, ?_⟩
      · rw [htrace, List.countP_append, List.countP_append, hp.2]
        rfl
      · rw [htrace]; simp
      · intro ev hev
        simp only [List.mem_singleton] at hev
        subst hev; rfl
      · intro ev hev
        simp only [List.mem_singleton] at hev
        subst hev; rfl
  · have htrace : (main hdr w).2 =
        [Event.init_post_process, Event.init_yolov7_model modelPath] := by
      simp [main, h]
    refine ⟨by rw [htrace]; rfl, fun h0 => absurd h0 h, fun _ => ⟨htrace, ?_, ?_⟩⟩
    · rw [htrace]; rfl
    · intro ev hev
      rw [htrace] at hev
      simp only [List.mem_cons, List.mem_singleton, List.not_mem_nil, or_false] at hev
      rcases hev with hev | hev <;> subst hev <;> rfl

/-- C8 at a run whose detector initialises and whose files fail in every way: the
detector is released exactly once. -/
theorem C8_detector_lifecycle_witness :
    (main sampleHeader everythingFailsWorld).2.countP isRelease = 1 :=
  ((C8_detector_lifecycle sampleHeader everythingFailsWorld).2.1 (by decide)).1

/-! ## C9: the drawing calls -/

theorem drawLoop_eq_flatMap (hdr : Header) (results : Nat → object_detect_result) :
    ∀ (remaining i : Nat), drawLoop hdr results i remaining =
      (List.range remaining).flatMap (fun j => drawBody hdr (results (i + j))) := by
  intro remaining
  induction remaining with
  | zero => intro i; rfl
  | succ n ih =>
    intro i
    rw [drawLoop, ih, List.range_succ_eq_map, List.flatMap_cons, List.flatMap_map]
    simp only [Nat.add_zero]
    congr 1
    apply List.flatMap_congr
    intro j _
    show drawBody hdr (results (i + 1 + j)) = drawBody hdr (results (i + (j + 1)))
    rw [Nat.add_assoc, Nat.add_comm 1 j]

theorem countP_rectangle_drawLoop (hdr : Header) (results : Nat → object_detect_result) :
    ∀ (remaining i : Nat),
      (drawLoop hdr results i remaining).countP isDrawRectangle = remaining := by
  intro remaining
  induction remaining with
  | zero => intro i; rfl
  | succ n ih =>
    intro i
    rw [drawLoop, List.countP_append, ih]
    simp [drawBody, isDrawRectangle, List.countP_cons, Nat.add_comm]

/-- C9. For every entry with an image extension whose file decodes and on which the
detector returns 0 with a result list of count `n`, the iteration issues the decode and
the detection, then for `i = 0, 1, ...` below `max(n, 0)`, in this order, the pair
`draw_rectangle` at `x = left`, `y = top`, `width = right - left`,
`height = bottom - top`, `COLOR_BLUE`, thickness 3, and `draw_text` at `x = left`,
`y = top - 20`, `COLOR_RED`, font size 10, of the `i`-th result, then the single write and
the release: `max(n, 0)` rectangles, none re-ordered, dropped or altered, all before the
write. -/
theorem C9_drawing_calls (hdr : Header) (folderPath outputFolderPath : List Char) (e : Entry)
    (hname : hasImageExtension e.d_name = true) (hdecode : e.imread.empty = false)
    (hdetect : e.inference_ret = 0) :
    loopBody hdr folderPath outputFolderPath e =
      [Event.imread (fullPath folderPath e.d_name),
       Event.cvtColor (if e.imread.channels = 4 then ColorConversion.COLOR_BGRA2RGB
         else ColorConversion.COLOR_BGR2RGB),
       Event.malloc e.malloc,
       Event.inference_yolov7_model (decodedImage hdr e)] ++
      (List.range e.od_results.count.toNat).flatMap (fun i =>
        [Event.draw_rectangle (e.od_results.results i).box.left (e.od_results.results i).box.top
           ((e.od_results.results i).box.right - (e.od_results.results i).box.left)
           ((e.od_results.results i).box.bottom - (e.od_results.results i).box.top)
           hdr.COLOR_BLUE 3,
         Event.draw_text
           (hdr.label_text (e.od_results.results i).cls_id (e.od_results.results i).prop)
           (e.od_results.results i).box.left ((e.od_results.results i).box.top - 20)
           hdr.COLOR_RED 10]) ++
      [Event.cvtColor ColorConversion.COLOR_RGB2BGR,
       Event.imwrite (outputFileName folderPath outputFolderPath e.d_name) 3,
       Event.free e.malloc] ∧
    (loopBody hdr folderPath outputFolderPath e).countP isDrawRectangle =
      e.od_results.count.toNat ∧
    (e.od_results.count.toNat : Int) = max e.od_results.count 0 := by
  have hbody := loopBody_completed hdr folderPath outputFolderPath e hname hdecode hdetect
  refine ⟨?_, ?_, Int.toNat_eq_max _⟩
  · rw [hbody, drawLoop_eq_flatMap]
    simp only [Nat.zero_add]
    rfl
  · rw [hbody, List.countP_append, List.countP_append, countP_rectangle_drawLoop]
    simp [decodeAndDetect, isDrawRectangle, List.countP_cons]

/-- C9 at the entry `a.jpg` with one detection of box (10, 10, 50, 50): one rectangle at
(10, 10) of width 40 and height 40, one label at (10, -10), then the write. -/
theorem C9_drawing_calls_witness :
    loopBody sampleHeader sampleIn sampleOut (sampleEntry name_a_jpg) =
      [Event.imread ['i', 'n', '/', 'a', '.', 'j', 'p', 'g'],
       Event.cvtColor ColorConversion.COLOR_BGR2RGB,
       Event.malloc 4096,
       Event.inference_yolov7_model sampleImage,
       Event.draw_rectangle 10 10 40 40 255 3,
       Event.draw_text ['c', 'a', 't'] 10 (-10) 16711680 10,
       Event.cvtColor ColorConversion.COLOR_RGB2BGR,
       Event.imwrite out_a_out_png 3,
       Event.free 4096] :=
  (C9_drawing_calls sampleHeader sampleIn sampleOut (sampleEntry name_a_jpg)
    (by decide) (by decide) (by decide)).1.trans (by decide)

/-! ## C10: the write of an image -/

/-- C10. For every buffer handed to `write_image_opencv`: the channel count is 3 for
`IMAGE_FORMAT_RGB888`, 1 for `IMAGE_FORMAT_GRAY8` and 4 for every other format; the calls
issued are the conversion `COLOR_RGB2BGR`, when the format is `IMAGE_FORMAT_RGB888`,
followed by `cv::imwrite` with that channel count, so the conversion is applied exactly
for `IMAGE_FORMAT_RGB888`; and the function returns 0 exactly when `cv::imwrite` reports
success and -1 otherwise. -/
theorem C10_write_image (hdr : Header) (success : Bool) (path : List Char)
    (img : image_buffer_t) :
    (img.format = hdr.IMAGE_FORMAT_RGB888 → write_channels hdr img = 3) ∧
    (img.format = hdr.IMAGE_FORMAT_GRAY8 → write_channels hdr img = 1) ∧
    (img.format ≠ hdr.IMAGE_FORMAT_RGB888 → img.format ≠ hdr.IMAGE_FORMAT_GRAY8 →
      write_channels hdr img = 4) ∧
    (write_image_opencv hdr success path img).2 =
      (if img.format = hdr.IMAGE_FORMAT_RGB888 then
          [Event.cvtColor ColorConversion.COLOR_RGB2BGR] else []) ++
        [Event.imwrite path (write_channels hdr img)] ∧
    (Event.cvtColor ColorConversion.COLOR_RGB2BGR ∈ (write_image_opencv hdr success path img).2 ↔
      img.format = hdr.IMAGE_FORMAT_RGB888) ∧
    ((write_image_opencv hdr success path img).1 = 0 ↔ success = true) ∧
    ((write_image_opencv hdr success path img).1 = -1 ↔ success = false) := by
  have hne := hdr.enumerators_distinct
  have hev : (write_image_opencv hdr success path img).2 =
      (if img.format = hdr.IMAGE_FORMAT_RGB888 then
          [Event.cvtColor ColorConversion.COLOR_RGB2BGR] else []) ++
        [Event.imwrite path (write_channels hdr img)] := by
    by_cases h : img.format = hdr.IMAGE_FORMAT_RGB888
    · simp [write_image_opencv, write_channels, h]
    · simp [write_image_opencv, h]
  refine ⟨?_, ?_, ?_, hev, ?_, ?_, ?_⟩
  · intro h
    simp [write_channels, h]
  · intro h
    have hg : hdr.IMAGE_FORMAT_GRAY8 ≠ hdr.IMAGE_FORMAT_RGB888 := fun h2 => hne h2.symm
    simp [write_channels, h, hg]
  · intro h1 h2
    simp [write_channels, h1, h2]
  · rw [hev]
    by_cases h : img.format = hdr.IMAGE_FORMAT_RGB888
    · simp [h]
    · simp [h]
  · cases success <;> simp [write_image_opencv]
  · cases success <;> simp [write_image_opencv]

/-- C10 at a colour buffer whose write fails: three channels, the conversion is applied,
and the status is -1. -/
theorem C10_write_image_witness :
    write_channels sampleHeader sampleImage = 3 ∧
    (write_image_opencv sampleHeader false out_a_out_png sampleImage).1 = -1 :=
  ⟨(C10_write_image sampleHeader false out_a_out_png sampleImage).1 (by decide),
   (C10_write_image sampleHeader false out_a_out_png sampleImage).2.2.2.2.2.2.mpr rfl⟩

end Yolov7Driver
